import Mathlib

/-!
Verification model of `archive-s3.py` (DCOR-dev/archive-s3).

The script mirrors S3 buckets into local storage, packing objects smaller
than a configured threshold into an uncompressed zip container per bucket
(`SmallObjectPacker`), downloading larger objects directly
(`download_resource`), guarding against concurrent runs (`get_lock`), and
raising `ReachingQuotaLimitError` after all sources are processed when a
source exceeds 95% of its quota (`__main__`).

Modelling conventions (shallow embedding of the Python source):

* The local filesystem is an association list from path strings to file
  sizes (`FS.files`), plus a counter `FS.netOps` of network transfers,
  which the model of `s3_client.download_file` increments.
* The S3 client is a function `String → String → Nat` giving the byte
  size of object `key` in `bucket`; downloads are assumed to succeed
  (error propagation is outside the claims treated here).
* `path_backup.with_name("temp_" + path_backup.name + "~")` is modelled
  at whole-path granularity: `temp_path p = "temp_" ++ p ++ "~"`.  The
  properties proved only use that the temporary path is a deterministic
  function of the final path and distinct from it.
* Regular-expression matching (`re.match`) is modelled by abstract
  predicates `String → Bool`.
* Python float division in `quota_percent = size_total / s3_quota` is
  modelled by exact rational division.
* Zip layout (`zipfile`, `ZIP_STORED`): an entry `(name, data)` occupies
  `30 + name.length + data` bytes while the archive is open (local file
  header plus stored data), and closing the archive appends a central
  directory of `46 + name.length` bytes per entry plus the 22-byte end
  record.  Only the facts that each entry contributes at least its data
  size and that closing only adds bytes are used in proofs.
* The pagination loop of `list_objects_v2` (`MaxKeys = 500`, continuation
  tokens) yields the bucket's objects in listing order; the model folds
  over that full listing.
* `SmallObjectPacker.close` writes the manifest `.txt` file and cleans the
  scratch directory; the manifest files are modelled as a separate list of
  line lists per bucket (`BucketDisk.manifests`), and a run appends its
  manifest (a same-day rerun overwrites the day's `.txt` with a superset
  of its lines, which has the same membership semantics).
-/

namespace ArchiveS3

/-! ## Association-list filesystem -/

/-- Lookup in an association list of `(path, size)` pairs. -/
def alookup : List (String × Nat) → String → Option Nat
  | [], _ => none
  | (q, n) :: t, p => if q = p then some n else alookup t p

/-- Remove every entry for a path. -/
def aerase : List (String × Nat) → String → List (String × Nat)
  | [], _ => []
  | (q, n) :: t, p => if q = p then aerase t p else (q, n) :: aerase t p

/-- Local filesystem state: files (path to byte size) and a count of
network transfers performed so far. -/
structure FS where
  files : List (String × Nat)
  netOps : Nat
deriving Repr, DecidableEq

/-- `pathlib.Path.exists()` -/
def FS.pathExists (fs : FS) (p : String) : Bool := (alookup fs.files p).isSome

/-- `pathlib.Path.stat().st_size` -/
def FS.fsize (fs : FS) (p : String) : Nat := (alookup fs.files p).getD 0

/-- `pathlib.Path.unlink()` -/
def FS.unlink (fs : FS) (p : String) : FS := { fs with files := aerase fs.files p }

/-- Create/overwrite a local file (no network). -/
def FS.write (fs : FS) (p : String) (n : Nat) : FS :=
  { fs with files := (p, n) :: fs.files }

/-- `s3_client.download_file(bucket, key, path)`: writes the object's bytes
to `path` and counts one network transfer. -/
def FS.download (fs : FS) (p : String) (n : Nat) : FS :=
  { fs with files := (p, n) :: fs.files, netOps := fs.netOps + 1 }

/-- `pathlib.Path.rename(dst)` -/
def FS.rename (fs : FS) (src dst : String) : FS :=
  (fs.unlink src).write dst (fs.fsize src)

/-! ## Paths -/

/-- `a / b` -/
def path_join (a b : String) : String := a ++ "/" ++ b

/-- `path_backup.with_name("temp_" + path_backup.name + "~")`, modelled at
whole-path granularity. -/
def temp_path (p : String) : String := "temp_" ++ p ++ "~"

/-- `output_path / bucket_name / object_name` -/
def obj_path (root bucket_name object_name : String) : String :=
  path_join root (path_join bucket_name object_name)

/-! ## `download_resource` -/

/-- `download_resource(bucket_name, object_name, output_path, s3_client)`:
skip if the final file exists, otherwise delete a stale temporary file,
download to the temporary path, rename into place and return the size. -/
def download_resource (bucket_name object_name output_path : String)
    (s3_client : String → String → Nat) (fs : FS) : Nat × FS :=
  let path_backup := obj_path output_path bucket_name object_name
  if fs.pathExists path_backup then
    (0, fs)
  else
    let path_temp := temp_path path_backup
    let fs1 := if fs.pathExists path_temp then fs.unlink path_temp else fs
    let fs2 := fs1.download path_temp (s3_client bucket_name object_name)
    let fs3 := fs2.rename path_temp path_backup
    (fs3.fsize path_backup, fs3)

/-! ## `SmallObjectPacker` -/

/-- State of one `SmallObjectPacker`: the target bucket, the minimum-size
floor, the scratch directory (`tempfile.mkdtemp`), the historical manifest
lines loaded from every `small_objects_*.txt` (`file_list`), and the
entries `(name, data size)` of the currently open zip container. -/
structure Packer where
  bucket_name : String
  min_file_size : Nat
  tdir : String
  file_list : List String
  entries : List (String × Nat)
deriving Repr, DecidableEq

/-- `zipfile.ZipFile.namelist()` -/
def zip_names (entries : List (String × Nat)) : List String := entries.map Prod.fst

/-- `SmallObjectPacker.add_object(object_name)`: return 0 if the qualified
name is in the historical manifest, else 0 if it is already in the open
container, else download to scratch, append to the container, delete the
scratch copy and return the downloaded size. -/
def Packer.add_object (pk : Packer) (s3_client : String → String → Nat)
    (fs : FS) (object_name : String) : Nat × Packer × FS :=
  let zip_name := path_join pk.bucket_name object_name
  if zip_name ∈ pk.file_list then
    (0, pk, fs)
  else if zip_name ∈ zip_names pk.entries then
    (0, pk, fs)
  else
    let (retval, fs1) := download_resource pk.bucket_name object_name pk.tdir s3_client fs
    let object_path := obj_path pk.tdir pk.bucket_name object_name
    let pk1 := { pk with entries := pk.entries ++ [(zip_name, fs1.fsize object_path)] }
    let fs2 := fs1.unlink object_path
    (retval, pk1, fs2)

/-- Bytes occupied by the still-open zip container: one local file header
(30 bytes plus the entry name) and the stored, uncompressed data per
entry. -/
def zipSizeOpen (entries : List (String × Nat)) : Nat :=
  (entries.map (fun e => 30 + e.1.length + e.2)).sum

/-- Bytes the central directory adds when the zip is closed. -/
def zipCentralSize (entries : List (String × Nat)) : Nat :=
  (entries.map (fun e => 46 + e.1.length)).sum + 22

/-- On-disk size of the finalized (closed) zip container. -/
def zipSizeClosed (entries : List (String × Nat)) : Nat :=
  zipSizeOpen entries + zipCentralSize entries

/-- Outcome of `SmallObjectPacker.close()`:  whether the container file was
deleted, the lines written to the manifest `.txt` (`[]` if none was
written), the final container entries, and the final on-disk size. -/
structure CloseResult where
  deleted : Bool
  manifest : List String
  finalEntries : List (String × Nat)
  finalSize : Nat
deriving Repr, DecidableEq

/-- `SmallObjectPacker.close()`: delete an empty container; otherwise write
the manifest from the current name list, then, if the file is below the
floor, append the `dummy.img` padding entry of `min_file_size` bytes of
`"0"`, and close. -/
def Packer.close (pk : Packer) : CloseResult :=
  if pk.entries.isEmpty then
    { deleted := true, manifest := [], finalEntries := [], finalSize := 0 }
  else
    let manifest := zip_names pk.entries
    let entries1 :=
      if zipSizeOpen pk.entries < pk.min_file_size then
        pk.entries ++ [("dummy.img", pk.min_file_size)]
      else pk.entries
    { deleted := false, manifest := manifest, finalEntries := entries1,
      finalSize := zipSizeClosed entries1 }

/-! ## `get_lock` -/

/-- Environment observed by `get_lock`: whether the `.lock` marker file
exists, its age `time.time() - st_ctime` in seconds, and, per running
process, how many times the identity string `"archive-s3"` occurs in its
joined command line (the current process contributes its own
occurrences). -/
structure LockEnv where
  lock_exists : Bool
  lock_age : Int
  procs : List Nat
deriving Repr, DecidableEq

/-- Outcome of `get_lock()`: whether it returned `True` (as opposed to the
falsy `None`), whether it touched the marker file, and whether it
registered the `atexit` removal of the marker. -/
structure LockResult where
  acquired : Bool
  touched : Bool
  release_scheduled : Bool
deriving Repr, DecidableEq

/-- `get_lock()`: refuse while a marker younger than 7200 seconds exists;
for an older marker, refuse only if the identity string is found more than
once in the process list; otherwise touch the marker, register its
unconditional removal at process exit, and return `True`. -/
def get_lock (env : LockEnv) : LockResult :=
  if env.lock_exists then
    if env.lock_age > 7200 then
      if env.procs.sum > 1 then
        { acquired := false, touched := false, release_scheduled := false }
      else
        { acquired := true, touched := true, release_scheduled := true }
    else
      { acquired := false, touched := false, release_scheduled := false }
  else
    { acquired := true, touched := true, release_scheduled := true }

/-! ## `run_archive` -/

/-- One listed S3 object: `obj["Key"]` and `obj["Size"]`. -/
structure S3Object where
  key : String
  size : Nat
deriving Repr, DecidableEq

/-- Parsed configuration of one source (`get_config` plus the `int(...)`
conversions in `run_archive`); the compiled regular expressions are
abstract predicates. -/
structure Config where
  name : String
  re_bucket : String → Bool
  re_object : String → Bool
  object_size_min : Nat
  s3_quota : Nat
  archive_path : String

/-- The counters of `run_archive`. -/
structure Counters where
  num_buckets_archived : Nat
  num_buckets_ignored : Nat
  num_objects_archived : Nat
  num_objects_archived_small : Nat
  num_objects_ignored_regexp : Nat
  size_total : Nat
  size_archived : Nat
deriving Repr, DecidableEq

/-- All counters start at zero. -/
def Counters.init : Counters := ⟨0, 0, 0, 0, 0, 0, 0⟩

/-- Counters with the two bucket-classification counters zeroed out; used
to state which outputs the bucket regexp cannot influence. -/
def Counters.eraseBucketCounts (c : Counters) : Counters :=
  { c with num_buckets_archived := 0, num_buckets_ignored := 0 }

/-- The body of the per-object loop of `run_archive` (lines 211-234): match
the key against the object regexp; on a match account the size and route by
size to `add_object` or `download_resource`, then bump
`num_objects_archived`; otherwise bump `num_objects_ignored_regexp`. -/
def process_object (cfg : Config) (s3_client : String → String → Nat)
    (bucket_name : String) (st : Counters × Packer × FS) (obj : S3Object) :
    Counters × Packer × FS :=
  let (c, pk, fs) := st
  if cfg.re_object obj.key then
    let c := { c with size_total := c.size_total + obj.size }
    let (c, pk, fs) :=
      if obj.size < cfg.object_size_min then
        let (r, pk1, fs1) := pk.add_object s3_client fs obj.key
        ({ c with
            size_archived := c.size_archived + r,
            num_objects_archived_small := c.num_objects_archived_small + 1 },
         pk1, fs1)
      else
        let (r, fs1) := download_resource bucket_name obj.key cfg.archive_path s3_client fs
        ({ c with size_archived := c.size_archived + r }, pk, fs1)
    ({ c with num_objects_archived := c.num_objects_archived + 1 }, pk, fs)
  else
    ({ c with num_objects_ignored_regexp := c.num_objects_ignored_regexp + 1 }, pk, fs)

/-- Per-bucket durable state: the shared filesystem, the accumulated
manifest files (`small_objects_*.txt`, as lists of lines), and the entries
already present in the container file the packer (re)opens. -/
structure BucketDisk where
  fs : FS
  manifests : List (List String)
  container : List (String × Nat)
deriving Repr, DecidableEq

/-- `SmallObjectPacker.__init__`: open/append the day's container and load
every historical manifest file of the bucket into `file_list`. -/
def packer_init (bucket_name tdir : String) (min_file_size : Nat)
    (d : BucketDisk) : Packer :=
  { bucket_name := bucket_name, min_file_size := min_file_size, tdir := tdir,
    file_list := d.manifests.flatten, entries := d.container }

/-- Processing of one bucket inside `run_archive` (lines 198-246): open a
packer, fold the object listing through the per-object loop, and close the
packer (writing its manifest and final container back to disk). -/
def run_bucket (cfg : Config) (s3_client : String → String → Nat)
    (bucket_name tdir : String) (listing : List S3Object)
    (c : Counters) (d : BucketDisk) : Counters × BucketDisk :=
  let pk0 := packer_init bucket_name tdir cfg.object_size_min d
  let (c1, pk1, fs1) :=
    listing.foldl (process_object cfg s3_client bucket_name) (c, pk0, d.fs)
  let cr := pk1.close
  (c1,
   { fs := fs1,
     manifests := d.manifests ++ (if cr.manifest.isEmpty then [] else [cr.manifest]),
     container := cr.finalEntries })

/-- The per-source result dictionary returned by `run_archive`. -/
structure RunResult where
  name : String
  s3_quota_used : ℚ
deriving Repr, DecidableEq

/-- The body of the bucket loop of `run_archive` (lines 192-246): classify
the bucket name against the bucket regexp (this only moves one of the two
bucket counters), then unconditionally open a packer for the bucket and
process its listing. -/
def archive_step (cfg : Config) (s3_client : String → String → Nat)
    (tdirOf : String → String)
    (manifestsOf : String → List (List String))
    (containerOf : String → List (String × Nat))
    (st : Counters × FS) (b : String × List S3Object) : Counters × FS :=
  let c :=
    if cfg.re_bucket b.1 then
      { st.1 with num_buckets_archived := st.1.num_buckets_archived + 1 }
    else
      { st.1 with num_buckets_ignored := st.1.num_buckets_ignored + 1 }
  let r := run_bucket cfg s3_client b.1 (tdirOf b.1) b.2 c
    { fs := st.2, manifests := manifestsOf b.1, container := containerOf b.1 }
  (r.1, r.2.fs)

/-- `run_archive(pc)`: zero the counters, iterate over all buckets —
classifying each against the bucket regexp for the two bucket counters and
then unconditionally processing it — and report the counters, the final
filesystem and the result dictionary with `quota_percent`. -/
def run_archive (cfg : Config) (s3_client : String → String → Nat)
    (buckets : List (String × List S3Object))
    (tdirOf : String → String)
    (manifestsOf : String → List (List String))
    (containerOf : String → List (String × Nat))
    (fs0 : FS) : Counters × FS × RunResult :=
  let cf := buckets.foldl (archive_step cfg s3_client tdirOf manifestsOf containerOf)
    (Counters.init, fs0)
  (cf.1, cf.2,
   { name := cfg.name, s3_quota_used := (cf.1.size_total : ℚ) / (cfg.s3_quota : ℚ) })

/-! ## `__main__` -/

/-- Everything one configured source needs: its configuration and the
remote and local state `run_archive` will see. -/
structure SourceSpec where
  cfg : Config
  s3_client : String → String → Nat
  buckets : List (String × List S3Object)
  tdirOf : String → String
  manifestsOf : String → List (List String)
  containerOf : String → List (String × Nat)
  fs0 : FS

/-- The `ret_dict` of one source's `run_archive` call. -/
def source_result (s : SourceSpec) : RunResult :=
  (run_archive s.cfg s.s3_client s.buckets s.tdirOf s.manifestsOf s.containerOf s.fs0).2.2

/-- The `__main__` driver after the lock is held: run every configured
source, collect the names whose quota usage exceeds 0.95 and, after all
sources are done, raise `ReachingQuotaLimitError` (the final `Bool`) iff
that list is nonempty. -/
def main_archive (sources : List SourceSpec) :
    List RunResult × List String × Bool :=
  let results := sources.map source_result
  let quota_issues :=
    (results.filter (fun r => decide ((0.95 : ℚ) < r.s3_quota_used))).map RunResult.name
  (results, quota_issues, !quota_issues.isEmpty)

/-! ## Concrete fixtures used by witnesses and counterexamples -/

/-- A packer holding a single 50-byte entry under a 1024-byte floor. -/
def pkSmall : Packer := ⟨"b", 1024, "tmp", [], [("b/a", 50)]⟩

/-- A packer with one manifest line and one open-container entry. -/
def pkW : Packer := ⟨"b", 1024, "tmp", ["b/x"], [("b/y", 5)]⟩

/-- The empty filesystem. -/
def fsEmpty : FS := ⟨[], 0⟩

/-- Empty per-bucket disk state. -/
def diskEmpty : BucketDisk := ⟨⟨[], 0⟩, [], []⟩

/-- A configuration matching every bucket and every object. -/
def cfgAll : Config := ⟨"src0", fun _ => true, fun _ => true, 1024, 1000000, "arch"⟩

/-- `cfgAll` with an object pattern that matches nothing. -/
def cfgNoObj : Config := ⟨"src0", fun _ => true, fun _ => false, 1024, 1000000, "arch"⟩

/-- `cfgAll` with a bucket pattern that matches nothing. -/
def cfgNoBucket : Config := ⟨"nb", fun _ => false, fun _ => true, 1024, 1000000, "arch"⟩

/-- The spec's scenario listing: `a` has 50 bytes, `b` has 2000 bytes. -/
def listingScenario : List S3Object := [⟨"a", 50⟩, ⟨"b", 2000⟩]

/-- Object sizes served by the store in the scenario. -/
def s3Scenario : String → String → Nat := fun _ k => if k = "a" then 50 else 2000

/-- The spec's quota scenario: one source with 960 observed bytes against a
1000-byte quota. -/
def srcQuota : SourceSpec :=
  { cfg := ⟨"quota-src", fun _ => true, fun _ => true, 100, 1000, "arch"⟩,
    s3_client := fun _ _ => 960,
    buckets := [("bkt", [⟨"big", 960⟩])],
    tdirOf := fun _ => "tmp",
    manifestsOf := fun _ => [],
    containerOf := fun _ => [],
    fs0 := ⟨[], 0⟩ }

/-- Path separation for a bucket run: no final archive path of a listed
key collides with the temporary, scratch, or scratch-temporary path of any
listed key.  Real deployments satisfy this because the scratch directory
(`tempfile.mkdtemp`) lies outside the archive tree and the `temp_` name
decoration is never part of an archive path; it rules out degenerate string
collisions between the roots. -/
def Sep (archive tdir bucket : String) (keys : List String) : Prop :=
  ∀ k1 ∈ keys, ∀ k2 ∈ keys,
    obj_path archive bucket k1 ≠ temp_path (obj_path archive bucket k2) ∧
    obj_path archive bucket k1 ≠ obj_path tdir bucket k2 ∧
    obj_path archive bucket k1 ≠ temp_path (obj_path tdir bucket k2)

instance (archive tdir bucket : String) (keys : List String) :
    Decidable (Sep archive tdir bucket keys) := by
  unfold Sep
  infer_instance

/-! ## Lemmas about the association-list filesystem -/

theorem alookup_cons_self (l : List (String × Nat)) (p : String) (n : Nat) :
    alookup ((p, n) :: l) p = some n := by
  simp [alookup]

theorem alookup_cons_ne (l : List (String × Nat)) (q p : String) (n : Nat)
    (h : q ≠ p) : alookup ((q, n) :: l) p = alookup l p := by
  simp [alookup, h]

theorem aerase_cons_self (l : List (String × Nat)) (p : String) (n : Nat) :
    aerase ((p, n) :: l) p = aerase l p := by
  simp [aerase]

theorem aerase_cons_ne (l : List (String × Nat)) (q p : String) (n : Nat)
    (h : q ≠ p) : aerase ((q, n) :: l) p = (q, n) :: aerase l p := by
  simp [aerase, h]

theorem alookup_aerase_self (l : List (String × Nat)) (p : String) :
    alookup (aerase l p) p = none := by
  induction l with
  | nil => rfl
  | cons e t ih =>
    obtain ⟨q, n⟩ := e
    by_cases h : q = p
    · subst h; simpa [aerase] using ih
    · simp [aerase, alookup, h, ih]

theorem alookup_aerase_ne (l : List (String × Nat)) (p q : String) (h : q ≠ p) :
    alookup (aerase l p) q = alookup l q := by
  induction l with
  | nil => rfl
  | cons e t ih =>
    obtain ⟨r, n⟩ := e
    by_cases hr : r = p
    · subst hr
      have hq : r ≠ q := fun hc => h (hc ▸ rfl)
      simp [aerase, alookup, hq, ih]
    · by_cases hq : r = q
      · subst hq; simp [aerase, alookup, hr]
      · simp [aerase, alookup, hr, hq, ih]

theorem aerase_aerase (l : List (String × Nat)) (p : String) :
    aerase (aerase l p) p = aerase l p := by
  induction l with
  | nil => rfl
  | cons e t ih =>
    obtain ⟨q, n⟩ := e
    by_cases h : q = p
    · simp [aerase, h, ih]
    · simp [aerase, h, ih]

theorem temp_path_ne (p : String) : temp_path p ≠ p := by
  intro h
  have h1 := congrArg String.length h
  simp only [temp_path] at h1
  rw [String.length_append, String.length_append] at h1
  have h5 : ("temp_" : String).length = 5 := rfl
  have h6 : ("~" : String).length = 1 := rfl
  omega

/-! ## Characterizations of `download_resource` -/

/-- When the final file already exists, `download_resource` is a no-op
returning 0 (the idempotent-resume check). -/
theorem download_resource_skip (bucket_name object_name output_path : String)
    (s3_client : String → String → Nat) (fs : FS)
    (h : fs.pathExists (obj_path output_path bucket_name object_name) = true) :
    download_resource bucket_name object_name output_path s3_client fs = (0, fs) := by
  simp [download_resource, h]

/-- When the final file is absent, `download_resource` deletes any stale
temporary file, performs one network transfer and leaves the fresh object
at the final path, returning its size. -/
theorem download_resource_fetch (bucket_name object_name output_path : String)
    (s3_client : String → String → Nat) (fs : FS)
    (h : fs.pathExists (obj_path output_path bucket_name object_name) = false) :
    download_resource bucket_name object_name output_path s3_client fs =
      (s3_client bucket_name object_name,
       ⟨(obj_path output_path bucket_name object_name,
         s3_client bucket_name object_name) ::
          aerase fs.files (temp_path (obj_path output_path bucket_name object_name)),
        fs.netOps + 1⟩) := by
  rcases fs with ⟨files, netOps⟩
  simp only [FS.pathExists] at h
  by_cases ht : (alookup files
      (temp_path (obj_path output_path bucket_name object_name))).isSome = true
  · simp [download_resource, h, ht, FS.unlink, FS.download, FS.rename, FS.write,
      FS.fsize, FS.pathExists, alookup_cons_self, aerase_cons_self, aerase_aerase]
  · simp [download_resource, h, ht, FS.unlink, FS.download, FS.rename, FS.write,
      FS.fsize, FS.pathExists, alookup_cons_self, aerase_cons_self, aerase_aerase]

/-! ## Lemmas about `Packer.close` -/

theorem zipSizeOpen_append (e1 e2 : List (String × Nat)) :
    zipSizeOpen (e1 ++ e2) = zipSizeOpen e1 + zipSizeOpen e2 := by
  simp [zipSizeOpen]

theorem isEmpty_false_of_ne_nil {α : Type} {l : List α} (h : l ≠ []) :
    l.isEmpty = false := by
  cases l with
  | nil => exact absurd rfl h
  | cons a t => rfl

/-- When a non-empty container is under the floor at close time, exactly
the `dummy.img` entry of `min_file_size` data bytes is appended. -/
theorem close_padded_entries (pk : Packer) (h1 : pk.entries ≠ [])
    (h2 : zipSizeOpen pk.entries < pk.min_file_size) :
    (Packer.close pk).finalEntries =
      pk.entries ++ [("dummy.img", pk.min_file_size)] := by
  simp [Packer.close, isEmpty_false_of_ne_nil h1, h2]

/-- A finalized non-empty container is at least `min_file_size` bytes. -/
theorem close_finalSize_ge (pk : Packer) (h : pk.entries ≠ []) :
    pk.min_file_size ≤ (Packer.close pk).finalSize := by
  have he := isEmpty_false_of_ne_nil h
  by_cases h2 : zipSizeOpen pk.entries < pk.min_file_size
  · simp only [Packer.close, he, Bool.false_eq_true, if_false, h2, if_true]
    rw [zipSizeClosed, zipSizeOpen_append]
    have hd : zipSizeOpen [("dummy.img", pk.min_file_size)] =
        30 + 9 + pk.min_file_size := rfl
    omega
  · simp only [Packer.close, he, Bool.false_eq_true, if_false, h2]
    rw [zipSizeClosed]
    omega

/-- C8: For every finalized container that holds at least one entry at
close time, the final on-disk file size after `close()` is at least the
configured minimum-file-size floor (the `dummy.img` padding entry alone
occupies `min_file_size` data bytes when it is needed). -/
theorem c8_close_minimum_size (pk : Packer) (h : pk.entries ≠ []) :
    pk.min_file_size ≤ (Packer.close pk).finalSize :=
  close_finalSize_ge pk h

/-- Witness for C8 at the concrete packer `pkSmall`. -/
theorem c8_close_minimum_size_witness :
    pkSmall.entries ≠ [] ∧
    pkSmall.min_file_size ≤ (Packer.close pkSmall).finalSize :=
  ⟨by decide, c8_close_minimum_size pkSmall (by decide)⟩

/-- C7 (amended): during `close()` of a non-empty under-floor container
exactly one padding entry `dummy.img` is appended, but its data size is the
full `min_file_size` floor — not the difference needed to reach the floor —
so the finalized file ends at or above (generally well above) the floor. -/
theorem c7_padding_full_floor (pk : Packer) (h1 : pk.entries ≠ [])
    (h2 : zipSizeOpen pk.entries < pk.min_file_size) :
    (Packer.close pk).finalEntries =
      pk.entries ++ [("dummy.img", pk.min_file_size)] ∧
    pk.min_file_size ≤ (Packer.close pk).finalSize :=
  ⟨close_padded_entries pk h1 h2, close_finalSize_ge pk h1⟩

/-- Witness for the amended C7 at the concrete packer `pkSmall`. -/
theorem c7_padding_full_floor_witness :
    (pkSmall.entries ≠ [] ∧ zipSizeOpen pkSmall.entries < pkSmall.min_file_size) ∧
    (Packer.close pkSmall).finalEntries =
      pkSmall.entries ++ [("dummy.img", pkSmall.min_file_size)] ∧
    pkSmall.min_file_size ≤ (Packer.close pkSmall).finalSize :=
  ⟨⟨by decide, by decide⟩, c7_padding_full_floor pkSmall (by decide) (by decide)⟩

/-- Counterexample to C7 as stated: for a container holding one 50-byte
entry under a 1024-byte floor, the padding entry carries 1024 data bytes
and the finalized file is 1272 bytes — not "exactly the difference needed
to bring the finalized file to the floor", which would end the file at
1024 bytes. -/
theorem c7_counterexample :
    (Packer.close pkSmall).finalEntries = [("b/a", 50), ("dummy.img", 1024)] ∧
    (Packer.close pkSmall).finalSize = 1272 ∧
    pkSmall.min_file_size = 1024 ∧
    (1272 : Nat) ≠ 1024 := by decide

/-! ## C10: stale temporary files never block a direct download -/

/-- C10: if the final destination path is absent but a leftover temporary
file exists at the temporary path, `download_resource` removes it, performs
one fresh network transfer, renames the fresh copy into place and returns
the full downloaded size — the stale temporary never causes a skip and its
contents are not kept. -/
theorem c10_stale_temp_fresh_download (bucket_name object_name output_path : String)
    (s3_client : String → String → Nat) (fs : FS)
    (hb : fs.pathExists (obj_path output_path bucket_name object_name) = false)
    (ht : fs.pathExists (temp_path (obj_path output_path bucket_name object_name)) = true) :
    (download_resource bucket_name object_name output_path s3_client fs).1 =
        s3_client bucket_name object_name ∧
    (download_resource bucket_name object_name output_path s3_client fs).2.pathExists
        (obj_path output_path bucket_name object_name) = true ∧
    (download_resource bucket_name object_name output_path s3_client fs).2.fsize
        (obj_path output_path bucket_name object_name) =
        s3_client bucket_name object_name ∧
    (download_resource bucket_name object_name output_path s3_client fs).2.pathExists
        (temp_path (obj_path output_path bucket_name object_name)) = false ∧
    (download_resource bucket_name object_name output_path s3_client fs).2.netOps =
        fs.netOps + 1 := by
  rw [download_resource_fetch bucket_name object_name output_path s3_client fs hb]
  refine ⟨rfl, ?_, ?_, ?_, rfl⟩
  · simp [FS.pathExists, alookup_cons_self]
  · simp [FS.fsize, alookup_cons_self]
  · rw [FS.pathExists,
      alookup_cons_ne _ _ _ _ (Ne.symm (temp_path_ne _)),
      alookup_aerase_self]
    rfl

/-- Witness for C10: destination `o/b/k` absent, stale 13-byte temporary
present. -/
theorem c10_stale_temp_fresh_download_witness :
    ((FS.pathExists ⟨[("temp_o/b/k~", 13)], 0⟩ (obj_path "o" "b" "k") = false) ∧
     (FS.pathExists ⟨[("temp_o/b/k~", 13)], 0⟩ (temp_path (obj_path "o" "b" "k")) = true)) ∧
    (download_resource "b" "k" "o" (fun _ _ => 77) ⟨[("temp_o/b/k~", 13)], 0⟩).1 = 77 ∧
    (download_resource "b" "k" "o" (fun _ _ => 77) ⟨[("temp_o/b/k~", 13)], 0⟩).2.pathExists
        (obj_path "o" "b" "k") = true ∧
    (download_resource "b" "k" "o" (fun _ _ => 77) ⟨[("temp_o/b/k~", 13)], 0⟩).2.fsize
        (obj_path "o" "b" "k") = 77 ∧
    (download_resource "b" "k" "o" (fun _ _ => 77) ⟨[("temp_o/b/k~", 13)], 0⟩).2.pathExists
        (temp_path (obj_path "o" "b" "k")) = false ∧
    (download_resource "b" "k" "o" (fun _ _ => 77) ⟨[("temp_o/b/k~", 13)], 0⟩).2.netOps =
        0 + 1 :=
  ⟨⟨by decide, by decide⟩,
   c10_stale_temp_fresh_download "b" "k" "o" (fun _ _ => 77)
     ⟨[("temp_o/b/k~", 13)], 0⟩ (by decide) (by decide)⟩

/-! ## C9: filtered-out objects are pure counter bumps -/

/-- C9: for a listed object whose key does not match the object pattern,
the loop body performs no download and no packer call and changes nothing
but the `num_objects_ignored_regexp` counter; in particular the object's
size is not added to `size_total`, so it cannot contribute to the quota
fraction. -/
theorem c9_filtered_object_frame (cfg : Config)
    (s3_client : String → String → Nat) (bucket_name : String)
    (c : Counters) (pk : Packer) (fs : FS) (obj : S3Object)
    (h : cfg.re_object obj.key = false) :
    process_object cfg s3_client bucket_name (c, pk, fs) obj =
      ({ c with num_objects_ignored_regexp := c.num_objects_ignored_regexp + 1 },
       pk, fs) := by
  simp [process_object, h]

/-- Witness for C9 with the match-nothing object pattern. -/
theorem c9_filtered_object_frame_witness :
    cfgNoObj.re_object "k" = false ∧
    process_object cfgNoObj (fun _ _ => 5) "bkt" (Counters.init, pkW, fsEmpty) ⟨"k", 10⟩ =
      ({ Counters.init with
          num_objects_ignored_regexp := Counters.init.num_objects_ignored_regexp + 1 },
       pkW, fsEmpty) :=
  ⟨rfl, c9_filtered_object_frame cfgNoObj (fun _ _ => 5) "bkt"
    Counters.init pkW fsEmpty ⟨"k", 10⟩ rfl⟩

/-! ## C5: lock acquisition -/

/-- C5: `get_lock` refuses whenever a marker younger than the two-hour
window exists, regardless of the process list; it acquires (touching the
marker and registering its unconditional `atexit` removal) when no marker
exists, or when the marker is stale and no competing live process is found
(the identity string occurs at most once, accounting for the current
process itself); it refuses when the marker is stale but such a process is
found. -/
theorem c5_get_lock_cases (env : LockEnv) :
    (env.lock_exists = true → env.lock_age < 7200 →
      get_lock env = ⟨false, false, false⟩) ∧
    (env.lock_exists = false →
      get_lock env = ⟨true, true, true⟩) ∧
    (env.lock_exists = true → 7200 < env.lock_age → env.procs.sum ≤ 1 →
      get_lock env = ⟨true, true, true⟩) ∧
    (env.lock_exists = true → 7200 < env.lock_age → 1 < env.procs.sum →
      get_lock env = ⟨false, false, false⟩) := by
  refine ⟨fun he ha => ?_, fun he => ?_, fun he ha hp => ?_, fun he ha hp => ?_⟩
  · simp only [get_lock, he, if_true]
    rw [if_neg (by omega)]
  · simp [get_lock, he]
  · simp only [get_lock, he, if_true]
    rw [if_pos (by omega), if_neg (by omega)]
  · simp only [get_lock, he, if_true]
    rw [if_pos (by omega), if_pos (by omega)]

/-- Witness for C5: all four branches at concrete environments (fresh
marker with competing processes; no marker; stale marker alone; stale
marker with a competitor). -/
theorem c5_get_lock_cases_witness :
    get_lock ⟨true, 100, [5, 5]⟩ = ⟨false, false, false⟩ ∧
    get_lock ⟨false, 0, []⟩ = ⟨true, true, true⟩ ∧
    get_lock ⟨true, 9000, [1]⟩ = ⟨true, true, true⟩ ∧
    get_lock ⟨true, 9000, [1, 1]⟩ = ⟨false, false, false⟩ :=
  ⟨(c5_get_lock_cases ⟨true, 100, [5, 5]⟩).1 rfl (by decide),
   (c5_get_lock_cases ⟨false, 0, []⟩).2.1 rfl,
   (c5_get_lock_cases ⟨true, 9000, [1]⟩).2.2.1 rfl (by decide) (by decide),
   (c5_get_lock_cases ⟨true, 9000, [1, 1]⟩).2.2.2 rfl (by decide) (by decide)⟩

/-! ## C3: the three-tier check of `add_object` -/

/-- C3: for every `add_object(k)` call with qualified name `bucket/k`:
if the name is in the loaded historical manifest, the call returns 0 and
leaves the packer and filesystem (hence the network counter) untouched;
otherwise, if the name is already in the open container's listing, it
likewise returns 0 with no effect; otherwise it downloads the object to the
scratch directory (one network transfer), appends it to the container under
the qualified name with the downloaded bytes, deletes the scratch copy, and
returns the downloaded size. -/
theorem c3_add_object_tiers (pk : Packer) (s3_client : String → String → Nat)
    (fs : FS) (object_name : String) :
    (path_join pk.bucket_name object_name ∈ pk.file_list →
      pk.add_object s3_client fs object_name = (0, pk, fs)) ∧
    (path_join pk.bucket_name object_name ∉ pk.file_list →
     path_join pk.bucket_name object_name ∈ zip_names pk.entries →
      pk.add_object s3_client fs object_name = (0, pk, fs)) ∧
    (path_join pk.bucket_name object_name ∉ pk.file_list →
     path_join pk.bucket_name object_name ∉ zip_names pk.entries →
     fs.pathExists (obj_path pk.tdir pk.bucket_name object_name) = false →
      pk.add_object s3_client fs object_name =
        (s3_client pk.bucket_name object_name,
         { pk with entries := pk.entries ++
             [(path_join pk.bucket_name object_name,
               s3_client pk.bucket_name object_name)] },
         ⟨aerase (aerase fs.files
             (temp_path (obj_path pk.tdir pk.bucket_name object_name)))
             (obj_path pk.tdir pk.bucket_name object_name),
          fs.netOps + 1⟩) ∧
      ((pk.add_object s3_client fs object_name).2.2).pathExists
          (obj_path pk.tdir pk.bucket_name object_name) = false ∧
      ((pk.add_object s3_client fs object_name).2.2).netOps = fs.netOps + 1) := by
  refine ⟨fun h1 => ?_, fun h1 h2 => ?_, fun h1 h2 h3 => ?_⟩
  · simp [Packer.add_object, h1]
  · simp [Packer.add_object, h1, h2]
  · have hd := download_resource_fetch pk.bucket_name object_name pk.tdir s3_client fs h3
    have heq : pk.add_object s3_client fs object_name =
        (s3_client pk.bucket_name object_name,
         { pk with entries := pk.entries ++
             [(path_join pk.bucket_name object_name,
               s3_client pk.bucket_name object_name)] },
         ⟨aerase (aerase fs.files
             (temp_path (obj_path pk.tdir pk.bucket_name object_name)))
             (obj_path pk.tdir pk.bucket_name object_name),
          fs.netOps + 1⟩) := by
      simp [Packer.add_object, h1, h2, hd, FS.unlink, FS.fsize,
        alookup_cons_self, aerase_cons_self]
    refine ⟨heq, ?_, ?_⟩
    · rw [heq]
      simp [FS.pathExists, alookup_aerase_self]
    · rw [heq]

/-- Witness for C3: all three tiers at a concrete packer (manifest line
`b/x`, container entry `b/y`, fresh object `z`). -/
theorem c3_add_object_tiers_witness :
    pkW.add_object (fun _ _ => 42) fsEmpty "x" = (0, pkW, fsEmpty) ∧
    pkW.add_object (fun _ _ => 42) fsEmpty "y" = (0, pkW, fsEmpty) ∧
    pkW.add_object (fun _ _ => 42) fsEmpty "z" =
      (42, { pkW with entries := pkW.entries ++ [(path_join pkW.bucket_name "z", 42)] },
       ⟨aerase (aerase fsEmpty.files (temp_path (obj_path pkW.tdir pkW.bucket_name "z")))
           (obj_path pkW.tdir pkW.bucket_name "z"),
        fsEmpty.netOps + 1⟩) ∧
    ((pkW.add_object (fun _ _ => 42) fsEmpty "z").2.2).pathExists
        (obj_path pkW.tdir pkW.bucket_name "z") = false ∧
    ((pkW.add_object (fun _ _ => 42) fsEmpty "z").2.2).netOps = fsEmpty.netOps + 1 :=
  ⟨(c3_add_object_tiers pkW (fun _ _ => 42) fsEmpty "x").1 (by decide),
   (c3_add_object_tiers pkW (fun _ _ => 42) fsEmpty "y").2.1 (by decide) (by decide),
   (c3_add_object_tiers pkW (fun _ _ => 42) fsEmpty "z").2.2
     (by decide) (by decide) (by decide)⟩

/-! ## Counter accounting (C2) -/

theorem countP_bool_add {α : Type} (p : α → Bool) (l : List α) :
    l.countP p + l.countP (fun a => !(p a)) = l.length := by
  induction l with
  | nil => rfl
  | cons x t ih =>
    rw [List.countP_cons, List.countP_cons]
    cases h : p x <;> simp [h] <;> omega

/-- Effect of one loop iteration on the five counting counters: the
`archived` counter is bumped for every matching object (small or large),
`archived_small` additionally for matching objects below the minimum size,
`ignored_regexp` exactly for non-matching objects, and the bucket counters
never change. -/
theorem process_object_counts (cfg : Config) (s3_client : String → String → Nat)
    (bucket_name : String) (c : Counters) (pk : Packer) (fs : FS) (obj : S3Object) :
    (process_object cfg s3_client bucket_name (c, pk, fs) obj).1.num_objects_archived
        = c.num_objects_archived + (if cfg.re_object obj.key then 1 else 0) ∧
    (process_object cfg s3_client bucket_name (c, pk, fs) obj).1.num_objects_archived_small
        = c.num_objects_archived_small +
          (if cfg.re_object obj.key && decide (obj.size < cfg.object_size_min)
           then 1 else 0) ∧
    (process_object cfg s3_client bucket_name (c, pk, fs) obj).1.num_objects_ignored_regexp
        = c.num_objects_ignored_regexp + (if cfg.re_object obj.key then 0 else 1) ∧
    (process_object cfg s3_client bucket_name (c, pk, fs) obj).1.num_buckets_archived
        = c.num_buckets_archived ∧
    (process_object cfg s3_client bucket_name (c, pk, fs) obj).1.num_buckets_ignored
        = c.num_buckets_ignored := by
  by_cases hm : cfg.re_object obj.key
  · by_cases hs : obj.size < cfg.object_size_min
    · rcases h : pk.add_object s3_client fs obj.key with ⟨r, pk1, fs1⟩
      simp [process_object, hm, hs, h]
    · rcases h : download_resource bucket_name obj.key cfg.archive_path s3_client fs
        with ⟨r, fs1⟩
      simp [process_object, hm, hs, h]
  · simp [process_object, hm]

/-- The counting counters after folding a listing through the loop body. -/
theorem foldl_counts (cfg : Config) (s3_client : String → String → Nat)
    (bucket_name : String) :
    ∀ (listing : List S3Object) (c : Counters) (pk : Packer) (fs : FS),
    ((listing.foldl (process_object cfg s3_client bucket_name) (c, pk, fs)).1.num_objects_archived
        = c.num_objects_archived + listing.countP (fun o => cfg.re_object o.key)) ∧
    ((listing.foldl (process_object cfg s3_client bucket_name) (c, pk, fs)).1.num_objects_archived_small
        = c.num_objects_archived_small +
          listing.countP (fun o => cfg.re_object o.key && decide (o.size < cfg.object_size_min))) ∧
    ((listing.foldl (process_object cfg s3_client bucket_name) (c, pk, fs)).1.num_objects_ignored_regexp
        = c.num_objects_ignored_regexp + listing.countP (fun o => !(cfg.re_object o.key))) ∧
    ((listing.foldl (process_object cfg s3_client bucket_name) (c, pk, fs)).1.num_buckets_archived
        = c.num_buckets_archived) ∧
    ((listing.foldl (process_object cfg s3_client bucket_name) (c, pk, fs)).1.num_buckets_ignored
        = c.num_buckets_ignored)
  | [], c, pk, fs => by simp
  | x :: xs, c, pk, fs => by
    rcases hstep : process_object cfg s3_client bucket_name (c, pk, fs) x with ⟨c1, pk1, fs1⟩
    have hc := process_object_counts cfg s3_client bucket_name c pk fs x
    rw [hstep] at hc
    obtain ⟨h1, h2, h3, h4, h5⟩ := hc
    obtain ⟨g1, g2, g3, g4, g5⟩ := foldl_counts cfg s3_client bucket_name xs c1 pk1 fs1
    rw [List.foldl_cons, hstep]
    refine ⟨?_, ?_, ?_, ?_, ?_⟩
    · rw [g1, h1, List.countP_cons]
      cases hb : cfg.re_object x.key <;> simp [hb] <;> omega
    · rw [g2, h2, List.countP_cons]
      cases hb : cfg.re_object x.key && decide (x.size < cfg.object_size_min) <;>
        simp [hb] <;> omega
    · rw [g3, h3, List.countP_cons]
      cases hb : cfg.re_object x.key <;> simp [hb] <;> omega
    · rw [g4, h4]
    · rw [g5, h5]

/-- C2 (amended): after processing a bucket, `num_objects_archived` counts
every listed object matching the key pattern — small objects included, so a
small object increments both `archived` and `archived_small` — while
`num_objects_ignored_regexp` counts the non-matching ones; hence
`archived + ignored` (not the three-way sum) partitions the listed objects.
In the spec's scenario the summary consequently reports archived=2,
archived_small=1. -/
theorem c2_counter_accounting (cfg : Config) (s3_client : String → String → Nat)
    (bucket_name tdir : String) (listing : List S3Object) (c : Counters) (d : BucketDisk) :
    ((run_bucket cfg s3_client bucket_name tdir listing c d).1.num_objects_archived
        = c.num_objects_archived + listing.countP (fun o => cfg.re_object o.key)) ∧
    ((run_bucket cfg s3_client bucket_name tdir listing c d).1.num_objects_archived_small
        = c.num_objects_archived_small +
          listing.countP (fun o => cfg.re_object o.key && decide (o.size < cfg.object_size_min))) ∧
    ((run_bucket cfg s3_client bucket_name tdir listing c d).1.num_objects_ignored_regexp
        = c.num_objects_ignored_regexp + listing.countP (fun o => !(cfg.re_object o.key))) ∧
    ((run_bucket cfg s3_client bucket_name tdir listing c d).1.num_objects_archived
        + (run_bucket cfg s3_client bucket_name tdir listing c d).1.num_objects_ignored_regexp
        = c.num_objects_archived + c.num_objects_ignored_regexp + listing.length) := by
  have hrb : (run_bucket cfg s3_client bucket_name tdir listing c d).1 =
      (listing.foldl (process_object cfg s3_client bucket_name)
        (c, packer_init bucket_name tdir cfg.object_size_min d, d.fs)).1 := rfl
  obtain ⟨h1, h2, h3, _, _⟩ :=
    foldl_counts cfg s3_client bucket_name listing c
      (packer_init bucket_name tdir cfg.object_size_min d) d.fs
  have hlen : listing.countP (fun o => cfg.re_object o.key) +
      listing.countP (fun o => !(cfg.re_object o.key)) = listing.length :=
    countP_bool_add _ _
  refine ⟨by rw [hrb, h1], by rw [hrb, h2], by rw [hrb, h3], ?_⟩
  rw [hrb, h1, h3]
  omega

/-- Counterexample to C2 as stated: in the spec's own scenario (objects of
50 and 2000 bytes, minimum size 1024, everything matching) the small object
increments both counters, so the summary reports archived=2 (not 1) and the
three-way sum is 3, not the number of listed objects. -/
theorem c2_counterexample :
    ((run_bucket cfgAll s3Scenario "logs-2024" "tmp" listingScenario
        Counters.init diskEmpty).1.num_objects_archived = 2) ∧
    ((run_bucket cfgAll s3Scenario "logs-2024" "tmp" listingScenario
        Counters.init diskEmpty).1.num_objects_archived_small = 1) ∧
    ((run_bucket cfgAll s3Scenario "logs-2024" "tmp" listingScenario
        Counters.init diskEmpty).1.num_objects_ignored_regexp = 0) ∧
    ((run_bucket cfgAll s3Scenario "logs-2024" "tmp" listingScenario
        Counters.init diskEmpty).1.num_objects_archived
      + (run_bucket cfgAll s3Scenario "logs-2024" "tmp" listingScenario
          Counters.init diskEmpty).1.num_objects_archived_small
      + (run_bucket cfgAll s3Scenario "logs-2024" "tmp" listingScenario
          Counters.init diskEmpty).1.num_objects_ignored_regexp
      ≠ listingScenario.length) := by
  decide

/-! ## C6: the quota-exceeded condition -/

/-- C6: the driver raises the distinguished `ReachingQuotaLimitError`
(rather than any generic failure, and only after every configured source
has produced its result) if and only if some source's quota fraction —
total observed bytes divided by its configured quota — exceeds 0.95; the
spec's scenario (quota 1000, 960 observed bytes) yields exactly the
fraction 0.96 and triggers the condition. -/
theorem c6_quota_alert_iff (sources : List SourceSpec) :
    ((main_archive sources).2.2 = true ↔
      ∃ s ∈ sources, (0.95 : ℚ) < (source_result s).s3_quota_used) ∧
    (main_archive sources).1 = sources.map source_result ∧
    (source_result srcQuota).s3_quota_used = 0.96 ∧
    (main_archive [srcQuota]).2.2 = true := by
  have hiff : ∀ ss : List SourceSpec, (main_archive ss).2.2 = true ↔
      ∃ s ∈ ss, (0.95 : ℚ) < (source_result s).s3_quota_used := by
    intro ss
    simp [main_archive, List.isEmpty_eq_false, List.filter_eq_nil_iff, List.mem_map]
  have hst : (run_archive srcQuota.cfg srcQuota.s3_client srcQuota.buckets
      srcQuota.tdirOf srcQuota.manifestsOf srcQuota.containerOf
      srcQuota.fs0).1.size_total = 960 := by decide
  have hq : (source_result srcQuota).s3_quota_used = 0.96 := by
    have hdef : (source_result srcQuota).s3_quota_used =
        ((run_archive srcQuota.cfg srcQuota.s3_client srcQuota.buckets
            srcQuota.tdirOf srcQuota.manifestsOf srcQuota.containerOf
            srcQuota.fs0).1.size_total : ℚ) / (srcQuota.cfg.s3_quota : ℚ) := rfl
    have hquota : srcQuota.cfg.s3_quota = 1000 := rfl
    rw [hdef, hst, hquota]
    norm_num
  refine ⟨hiff sources, rfl, hq, ?_⟩
  rw [hiff [srcQuota]]
  refine ⟨srcQuota, by simp, ?_⟩
  rw [hq]
  norm_num

/-! ## C1: the bucket regexp feeds the two bucket counters only -/

theorem run_bucket_def (cfg : Config) (s3_client : String → String → Nat)
    (bucket_name tdir : String) (listing : List S3Object)
    (c : Counters) (d : BucketDisk) :
    run_bucket cfg s3_client bucket_name tdir listing c d =
      ((listing.foldl (process_object cfg s3_client bucket_name)
          (c, packer_init bucket_name tdir cfg.object_size_min d, d.fs)).1,
       { fs := (listing.foldl (process_object cfg s3_client bucket_name)
            (c, packer_init bucket_name tdir cfg.object_size_min d, d.fs)).2.2,
         manifests := d.manifests ++
           (if ((listing.foldl (process_object cfg s3_client bucket_name)
                (c, packer_init bucket_name tdir cfg.object_size_min d, d.fs)).2.1.close).manifest.isEmpty
            then []
            else [((listing.foldl (process_object cfg s3_client bucket_name)
                (c, packer_init bucket_name tdir cfg.object_size_min d, d.fs)).2.1.close).manifest]),
         container := ((listing.foldl (process_object cfg s3_client bucket_name)
            (c, packer_init bucket_name tdir cfg.object_size_min d, d.fs)).2.1.close).finalEntries }) :=
  rfl

/-- The loop body never reads the bucket regexp. -/
theorem run_bucket_re_bucket (cfg : Config) (rb : String → Bool)
    (s3_client : String → String → Nat) (bucket_name tdir : String)
    (listing : List S3Object) (c : Counters) (d : BucketDisk) :
    run_bucket { cfg with re_bucket := rb } s3_client bucket_name tdir listing c d =
      run_bucket cfg s3_client bucket_name tdir listing c d :=
  rfl

/-- The per-object loop treats counter states that agree outside the bucket
counters identically: same packer/filesystem effect, and the non-bucket
counters evolve identically. -/
theorem process_object_erase (cfg : Config) (s3_client : String → String → Nat)
    (bucket_name : String) (c c' : Counters) (pk : Packer) (fs : FS) (obj : S3Object)
    (h : c.eraseBucketCounts = c'.eraseBucketCounts) :
    (process_object cfg s3_client bucket_name (c, pk, fs) obj).2 =
      (process_object cfg s3_client bucket_name (c', pk, fs) obj).2 ∧
    (process_object cfg s3_client bucket_name (c, pk, fs) obj).1.eraseBucketCounts =
      (process_object cfg s3_client bucket_name (c', pk, fs) obj).1.eraseBucketCounts := by
  obtain ⟨b1, b2, x3, x4, x5, x6, x7⟩ := c
  obtain ⟨c1, c2, y3, y4, y5, y6, y7⟩ := c'
  simp only [Counters.eraseBucketCounts, Counters.mk.injEq, and_true, true_and] at h
  obtain ⟨h3, h4, h5, h6, h7⟩ := h
  subst h3; subst h4; subst h5; subst h6; subst h7
  by_cases hm : cfg.re_object obj.key
  · by_cases hs : obj.size < cfg.object_size_min
    · rcases hstep : pk.add_object s3_client fs obj.key with ⟨r, pk1, fs1⟩
      simp [process_object, hm, hs, hstep, Counters.eraseBucketCounts]
    · rcases hstep : download_resource bucket_name obj.key cfg.archive_path s3_client fs
        with ⟨r, fs1⟩
      simp [process_object, hm, hs, hstep, Counters.eraseBucketCounts]
  · simp [process_object, hm, Counters.eraseBucketCounts]

/-- Fold version of `process_object_erase`. -/
theorem foldl_erase (cfg : Config) (s3_client : String → String → Nat)
    (bucket_name : String) :
    ∀ (listing : List S3Object) (c c' : Counters) (pk : Packer) (fs : FS),
    c.eraseBucketCounts = c'.eraseBucketCounts →
    ((listing.foldl (process_object cfg s3_client bucket_name) (c, pk, fs)).2 =
     (listing.foldl (process_object cfg s3_client bucket_name) (c', pk, fs)).2) ∧
    ((listing.foldl (process_object cfg s3_client bucket_name) (c, pk, fs)).1.eraseBucketCounts =
     (listing.foldl (process_object cfg s3_client bucket_name) (c', pk, fs)).1.eraseBucketCounts)
  | [], _, _, _, _, h => ⟨rfl, h⟩
  | x :: xs, c, c', pk, fs, h => by
    rcases h1 : process_object cfg s3_client bucket_name (c, pk, fs) x with ⟨c1, pk1, fs1⟩
    rcases h2 : process_object cfg s3_client bucket_name (c', pk, fs) x with ⟨c1', pk1', fs1'⟩
    have he := process_object_erase cfg s3_client bucket_name c c' pk fs x h
    rw [h1, h2] at he
    obtain ⟨hee, her⟩ := he
    injection hee with hpk hfs
    subst hpk; subst hfs
    simp only [List.foldl_cons, h1, h2]
    exact foldl_erase cfg s3_client bucket_name xs c1 c1' pk1 fs1 her

/-- `run_bucket` version of `process_object_erase`. -/
theorem run_bucket_erase (cfg : Config) (s3_client : String → String → Nat)
    (bucket_name tdir : String) (listing : List S3Object)
    (c c' : Counters) (d : BucketDisk)
    (h : c.eraseBucketCounts = c'.eraseBucketCounts) :
    (run_bucket cfg s3_client bucket_name tdir listing c d).2 =
      (run_bucket cfg s3_client bucket_name tdir listing c' d).2 ∧
    (run_bucket cfg s3_client bucket_name tdir listing c d).1.eraseBucketCounts =
      (run_bucket cfg s3_client bucket_name tdir listing c' d).1.eraseBucketCounts := by
  obtain ⟨h2, h1⟩ :=
    foldl_erase cfg s3_client bucket_name listing c c'
      (packer_init bucket_name tdir cfg.object_size_min d) d.fs h
  rw [run_bucket_def cfg s3_client bucket_name tdir listing c d,
    run_bucket_def cfg s3_client bucket_name tdir listing c' d]
  exact ⟨by rw [h2], h1⟩

/-- `run_bucket` never changes the bucket counters. -/
theorem run_bucket_bucket_counts (cfg : Config) (s3_client : String → String → Nat)
    (bucket_name tdir : String) (listing : List S3Object)
    (c : Counters) (d : BucketDisk) :
    (run_bucket cfg s3_client bucket_name tdir listing c d).1.num_buckets_archived =
      c.num_buckets_archived ∧
    (run_bucket cfg s3_client bucket_name tdir listing c d).1.num_buckets_ignored =
      c.num_buckets_ignored := by
  obtain ⟨_, _, _, h4, h5⟩ :=
    foldl_counts cfg s3_client bucket_name listing c
      (packer_init bucket_name tdir cfg.object_size_min d) d.fs
  exact ⟨h4, h5⟩

/-- Per-bucket step: the bucket counters advance exactly by the regexp
classification. -/
theorem archive_step_bucket_counts (cfg : Config) (s3_client : String → String → Nat)
    (tdirOf : String → String) (manifestsOf : String → List (List String))
    (containerOf : String → List (String × Nat))
    (st : Counters × FS) (b : String × List S3Object) :
    (archive_step cfg s3_client tdirOf manifestsOf containerOf st b).1.num_buckets_archived =
      st.1.num_buckets_archived + (if cfg.re_bucket b.1 then 1 else 0) ∧
    (archive_step cfg s3_client tdirOf manifestsOf containerOf st b).1.num_buckets_ignored =
      st.1.num_buckets_ignored + (if cfg.re_bucket b.1 then 0 else 1) := by
  by_cases hg : cfg.re_bucket b.1
  · obtain ⟨ha, hb⟩ := run_bucket_bucket_counts cfg s3_client b.1 (tdirOf b.1) b.2
      { st.1 with num_buckets_archived := st.1.num_buckets_archived + 1 }
      { fs := st.2, manifests := manifestsOf b.1, container := containerOf b.1 }
    simp [archive_step, hg, ha, hb]
  · obtain ⟨ha, hb⟩ := run_bucket_bucket_counts cfg s3_client b.1 (tdirOf b.1) b.2
      { st.1 with num_buckets_ignored := st.1.num_buckets_ignored + 1 }
      { fs := st.2, manifests := manifestsOf b.1, container := containerOf b.1 }
    simp [archive_step, hg, ha, hb]

/-- Per-bucket step: swapping the bucket regexp only touches the bucket
counters. -/
theorem archive_step_erase (cfg : Config) (rb rb' : String → Bool)
    (s3_client : String → String → Nat) (tdirOf : String → String)
    (manifestsOf : String → List (List String))
    (containerOf : String → List (String × Nat))
    (c c' : Counters) (fs : FS) (b : String × List S3Object)
    (h : c.eraseBucketCounts = c'.eraseBucketCounts) :
    (archive_step { cfg with re_bucket := rb } s3_client tdirOf manifestsOf containerOf (c, fs) b).2 =
      (archive_step { cfg with re_bucket := rb' } s3_client tdirOf manifestsOf containerOf (c', fs) b).2 ∧
    (archive_step { cfg with re_bucket := rb } s3_client tdirOf manifestsOf containerOf (c, fs) b).1.eraseBucketCounts =
      (archive_step { cfg with re_bucket := rb' } s3_client tdirOf manifestsOf containerOf (c', fs) b).1.eraseBucketCounts := by
  have herase : ∀ (x : Counters) (g : String → Bool),
      (((if g b.1 then { x with num_buckets_archived := x.num_buckets_archived + 1 }
         else { x with num_buckets_ignored := x.num_buckets_ignored + 1 }) : Counters)).eraseBucketCounts =
        x.eraseBucketCounts := by
    intro x g
    by_cases hg : g b.1 <;> simp [hg, Counters.eraseBucketCounts]
  have hcc :
      (((if rb b.1 then { c with num_buckets_archived := c.num_buckets_archived + 1 }
         else { c with num_buckets_ignored := c.num_buckets_ignored + 1 }) : Counters)).eraseBucketCounts =
      (((if rb' b.1 then { c' with num_buckets_archived := c'.num_buckets_archived + 1 }
         else { c' with num_buckets_ignored := c'.num_buckets_ignored + 1 }) : Counters)).eraseBucketCounts := by
    rw [herase c rb, herase c' rb', h]
  obtain ⟨h2, h1⟩ := run_bucket_erase cfg s3_client b.1 (tdirOf b.1) b.2
    (if rb b.1 then { c with num_buckets_archived := c.num_buckets_archived + 1 }
     else { c with num_buckets_ignored := c.num_buckets_ignored + 1 })
    (if rb' b.1 then { c' with num_buckets_archived := c'.num_buckets_archived + 1 }
     else { c' with num_buckets_ignored := c'.num_buckets_ignored + 1 })
    { fs := fs, manifests := manifestsOf b.1, container := containerOf b.1 } hcc
  exact ⟨congrArg BucketDisk.fs h2, h1⟩

/-- Fold version of `archive_step_erase`. -/
theorem archive_foldl_erase (cfg : Config) (rb rb' : String → Bool)
    (s3_client : String → String → Nat) (tdirOf : String → String)
    (manifestsOf : String → List (List String))
    (containerOf : String → List (String × Nat)) :
    ∀ (buckets : List (String × List S3Object)) (c c' : Counters) (fs : FS),
    c.eraseBucketCounts = c'.eraseBucketCounts →
    ((buckets.foldl (archive_step { cfg with re_bucket := rb } s3_client tdirOf manifestsOf containerOf) (c, fs)).2 =
     (buckets.foldl (archive_step { cfg with re_bucket := rb' } s3_client tdirOf manifestsOf containerOf) (c', fs)).2) ∧
    ((buckets.foldl (archive_step { cfg with re_bucket := rb } s3_client tdirOf manifestsOf containerOf) (c, fs)).1.eraseBucketCounts =
     (buckets.foldl (archive_step { cfg with re_bucket := rb' } s3_client tdirOf manifestsOf containerOf) (c', fs)).1.eraseBucketCounts)
  | [], _, _, _, h => ⟨rfl, h⟩
  | b :: bs, c, c', fs, h => by
    have hs := archive_step_erase cfg rb rb' s3_client tdirOf manifestsOf containerOf c c' fs b h
    rcases h1 : archive_step { cfg with re_bucket := rb } s3_client tdirOf manifestsOf containerOf (c, fs) b with ⟨c1, fs1⟩
    rcases h2 : archive_step { cfg with re_bucket := rb' } s3_client tdirOf manifestsOf containerOf (c', fs) b with ⟨c1', fs1'⟩
    rw [h1, h2] at hs
    obtain ⟨hfs, her⟩ := hs
    subst hfs
    simp only [List.foldl_cons, h1, h2]
    exact archive_foldl_erase cfg rb rb' s3_client tdirOf manifestsOf containerOf bs c1 c1' fs1 her

/-- Fold version of `archive_step_bucket_counts`. -/
theorem archive_foldl_counts (cfg : Config) (s3_client : String → String → Nat)
    (tdirOf : String → String) (manifestsOf : String → List (List String))
    (containerOf : String → List (String × Nat)) :
    ∀ (buckets : List (String × List S3Object)) (c : Counters) (fs : FS),
    ((buckets.foldl (archive_step cfg s3_client tdirOf manifestsOf containerOf) (c, fs)).1.num_buckets_archived =
      c.num_buckets_archived + buckets.countP (fun b => cfg.re_bucket b.1)) ∧
    ((buckets.foldl (archive_step cfg s3_client tdirOf manifestsOf containerOf) (c, fs)).1.num_buckets_ignored =
      c.num_buckets_ignored + buckets.countP (fun b => !(cfg.re_bucket b.1)))
  | [], c, fs => by simp
  | b :: bs, c, fs => by
    rcases h1 : archive_step cfg s3_client tdirOf manifestsOf containerOf (c, fs) b with ⟨c1, fs1⟩
    have hc := archive_step_bucket_counts cfg s3_client tdirOf manifestsOf containerOf (c, fs) b
    rw [h1] at hc
    obtain ⟨ha, hb⟩ := hc
    obtain ⟨ga, gb⟩ := archive_foldl_counts cfg s3_client tdirOf manifestsOf containerOf bs c1 fs1
    rw [List.foldl_cons, h1]
    constructor
    · rw [ga, ha, List.countP_cons]
      cases hg : cfg.re_bucket b.1 <;> simp [hg] <;> omega
    · rw [gb, hb, List.countP_cons]
      cases hg : cfg.re_bucket b.1 <;> simp [hg] <;> omega

/-- C1 (amended): the bucket-regexp classification feeds only the
included/excluded bucket counters; the orchestrator enters every bucket
regardless — all object counters, the byte totals, the filesystem effect
and the reported result are identical under any two bucket regexps, while
the two bucket counters are exactly the match counts. -/
theorem c1_bucket_regexp_only_counts (cfg : Config) (rb rb' : String → Bool)
    (s3_client : String → String → Nat)
    (buckets : List (String × List S3Object)) (tdirOf : String → String)
    (manifestsOf : String → List (List String))
    (containerOf : String → List (String × Nat)) (fs0 : FS) :
    ((run_archive { cfg with re_bucket := rb } s3_client buckets tdirOf manifestsOf containerOf fs0).1.eraseBucketCounts =
     (run_archive { cfg with re_bucket := rb' } s3_client buckets tdirOf manifestsOf containerOf fs0).1.eraseBucketCounts) ∧
    ((run_archive { cfg with re_bucket := rb } s3_client buckets tdirOf manifestsOf containerOf fs0).2.1 =
     (run_archive { cfg with re_bucket := rb' } s3_client buckets tdirOf manifestsOf containerOf fs0).2.1) ∧
    ((run_archive { cfg with re_bucket := rb } s3_client buckets tdirOf manifestsOf containerOf fs0).2.2 =
     (run_archive { cfg with re_bucket := rb' } s3_client buckets tdirOf manifestsOf containerOf fs0).2.2) ∧
    ((run_archive { cfg with re_bucket := rb } s3_client buckets tdirOf manifestsOf containerOf fs0).1.num_buckets_archived =
      buckets.countP (fun b => rb b.1)) ∧
    ((run_archive { cfg with re_bucket := rb } s3_client buckets tdirOf manifestsOf containerOf fs0).1.num_buckets_ignored =
      buckets.countP (fun b => !(rb b.1))) := by
  obtain ⟨hfs, her⟩ :=
    archive_foldl_erase cfg rb rb' s3_client tdirOf manifestsOf containerOf buckets
      Counters.init Counters.init fs0 rfl
  obtain ⟨hca, hci⟩ :=
    archive_foldl_counts { cfg with re_bucket := rb } s3_client tdirOf manifestsOf containerOf
      buckets Counters.init fs0
  have hst' := congrArg Counters.size_total her
  have hst : (buckets.foldl (archive_step { cfg with re_bucket := rb } s3_client tdirOf manifestsOf containerOf) (Counters.init, fs0)).1.size_total =
      (buckets.foldl (archive_step { cfg with re_bucket := rb' } s3_client tdirOf manifestsOf containerOf) (Counters.init, fs0)).1.size_total :=
    hst'
  refine ⟨her, hfs, ?_, ?_, ?_⟩
  · show ({ name := cfg.name, s3_quota_used := _ } : RunResult) = { name := cfg.name, s3_quota_used := _ }
    rw [hst]
  · simpa [Counters.init] using hca
  · simpa [Counters.init] using hci

/-- Counterexample to C1 as stated: under a bucket regexp matching nothing,
the orchestrator still processes the bucket — it downloads its object
(2000 transferred bytes, one archived object, the file present on disk)
even though the bucket counted as excluded. -/
theorem c1_counterexample :
    ((run_archive cfgNoBucket (fun _ _ => 2000) [("bkt", [⟨"big", 2000⟩])]
        (fun _ => "tmp") (fun _ => []) (fun _ => []) ⟨[], 0⟩).1.num_buckets_archived = 0) ∧
    ((run_archive cfgNoBucket (fun _ _ => 2000) [("bkt", [⟨"big", 2000⟩])]
        (fun _ => "tmp") (fun _ => []) (fun _ => []) ⟨[], 0⟩).1.num_buckets_ignored = 1) ∧
    ((run_archive cfgNoBucket (fun _ _ => 2000) [("bkt", [⟨"big", 2000⟩])]
        (fun _ => "tmp") (fun _ => []) (fun _ => []) ⟨[], 0⟩).1.num_objects_archived = 1) ∧
    ((run_archive cfgNoBucket (fun _ _ => 2000) [("bkt", [⟨"big", 2000⟩])]
        (fun _ => "tmp") (fun _ => []) (fun _ => []) ⟨[], 0⟩).1.size_archived = 2000) ∧
    ((run_archive cfgNoBucket (fun _ _ => 2000) [("bkt", [⟨"big", 2000⟩])]
        (fun _ => "tmp") (fun _ => []) (fun _ => []) ⟨[], 0⟩).2.1.pathExists
        "arch/bkt/big" = true) := by
  decide

/-! ## C4: idempotence machinery -/

/-- `add_object` is a no-op returning 0 on a manifest or container hit. -/
theorem add_object_skip (pk : Packer) (s3_client : String → String → Nat)
    (fs : FS) (object_name : String)
    (h : path_join pk.bucket_name object_name ∈ pk.file_list ∨
         path_join pk.bucket_name object_name ∈ zip_names pk.entries) :
    pk.add_object s3_client fs object_name = (0, pk, fs) := by
  rcases h with h | h
  · simp [Packer.add_object, h]
  · by_cases h1 : path_join pk.bucket_name object_name ∈ pk.file_list
    · simp [Packer.add_object, h1]
    · simp [Packer.add_object, h1, h]

/-- `add_object` on a fresh object with a clean scratch directory. -/
theorem add_object_fetch (pk : Packer) (s3_client : String → String → Nat)
    (fs : FS) (object_name : String)
    (h1 : path_join pk.bucket_name object_name ∉ pk.file_list)
    (h2 : path_join pk.bucket_name object_name ∉ zip_names pk.entries)
    (h3 : fs.pathExists (obj_path pk.tdir pk.bucket_name object_name) = false) :
    pk.add_object s3_client fs object_name =
      (s3_client pk.bucket_name object_name,
       { pk with entries := pk.entries ++
           [(path_join pk.bucket_name object_name,
             s3_client pk.bucket_name object_name)] },
       ⟨aerase (aerase fs.files
           (temp_path (obj_path pk.tdir pk.bucket_name object_name)))
           (obj_path pk.tdir pk.bucket_name object_name),
        fs.netOps + 1⟩) := by
  have hd := download_resource_fetch pk.bucket_name object_name pk.tdir s3_client fs h3
  simp [Packer.add_object, h1, h2, hd, FS.unlink, FS.fsize,
    alookup_cons_self, aerase_cons_self]

/-- `add_object` on a fresh object whose scratch path unexpectedly already
exists: the download is skipped (0 returned) but the stale scratch file is
still packed and deleted. -/
theorem add_object_scratch_exists (pk : Packer) (s3_client : String → String → Nat)
    (fs : FS) (object_name : String)
    (h1 : path_join pk.bucket_name object_name ∉ pk.file_list)
    (h2 : path_join pk.bucket_name object_name ∉ zip_names pk.entries)
    (h3 : fs.pathExists (obj_path pk.tdir pk.bucket_name object_name) = true) :
    pk.add_object s3_client fs object_name =
      (0,
       { pk with entries := pk.entries ++
           [(path_join pk.bucket_name object_name,
             fs.fsize (obj_path pk.tdir pk.bucket_name object_name))] },
       fs.unlink (obj_path pk.tdir pk.bucket_name object_name)) := by
  simp [Packer.add_object, h1, h2, download_resource_skip _ _ _ _ _ h3]

/-- One loop iteration never changes the packer's identity fields and only
appends to its entries. -/
theorem process_object_pk (cfg : Config) (s3_client : String → String → Nat)
    (bucket_name : String) (c : Counters) (pk : Packer) (fs : FS) (obj : S3Object) :
    ((process_object cfg s3_client bucket_name (c, pk, fs) obj).2.1).bucket_name = pk.bucket_name ∧
    ((process_object cfg s3_client bucket_name (c, pk, fs) obj).2.1).min_file_size = pk.min_file_size ∧
    ((process_object cfg s3_client bucket_name (c, pk, fs) obj).2.1).tdir = pk.tdir ∧
    ((process_object cfg s3_client bucket_name (c, pk, fs) obj).2.1).file_list = pk.file_list ∧
    ∃ s, ((process_object cfg s3_client bucket_name (c, pk, fs) obj).2.1).entries =
      pk.entries ++ s := by
  by_cases hm : cfg.re_object obj.key
  · by_cases hs : obj.size < cfg.object_size_min
    · by_cases hz : path_join pk.bucket_name obj.key ∈ pk.file_list ∨
          path_join pk.bucket_name obj.key ∈ zip_names pk.entries
      · refine ⟨?_, ?_, ?_, ?_, [], ?_⟩ <;>
          simp [process_object, hm, hs, add_object_skip pk s3_client fs obj.key hz]
      · push_neg at hz
        obtain ⟨hz1, hz2⟩ := hz
        by_cases hsp : fs.pathExists (obj_path pk.tdir pk.bucket_name obj.key) = true
        · refine ⟨?_, ?_, ?_, ?_,
            [(path_join pk.bucket_name obj.key,
              fs.fsize (obj_path pk.tdir pk.bucket_name obj.key))], ?_⟩ <;>
            simp [process_object, hm, hs,
              add_object_scratch_exists pk s3_client fs obj.key hz1 hz2 hsp]
        · have hsp' : fs.pathExists (obj_path pk.tdir pk.bucket_name obj.key) = false := by
            simpa using hsp
          refine ⟨?_, ?_, ?_, ?_,
            [(path_join pk.bucket_name obj.key, s3_client pk.bucket_name obj.key)], ?_⟩ <;>
            simp [process_object, hm, hs,
              add_object_fetch pk s3_client fs obj.key hz1 hz2 hsp']
    · rcases hd : download_resource bucket_name obj.key cfg.archive_path s3_client fs
        with ⟨r, fs1⟩
      refine ⟨?_, ?_, ?_, ?_, [], ?_⟩ <;> simp [process_object, hm, hs, hd]
  · refine ⟨?_, ?_, ?_, ?_, [], ?_⟩ <;> simp [process_object, hm]

/-- Processing a matching large object leaves its final path present. -/
theorem process_object_establishes (cfg : Config) (s3_client : String → String → Nat)
    (bucket_name : String) (c : Counters) (pk : Packer) (fs : FS) (obj : S3Object)
    (hm : cfg.re_object obj.key = true) (hs : ¬ obj.size < cfg.object_size_min) :
    ((process_object cfg s3_client bucket_name (c, pk, fs) obj).2.2).pathExists
      (obj_path cfg.archive_path bucket_name obj.key) = true := by
  by_cases hb : fs.pathExists (obj_path cfg.archive_path bucket_name obj.key) = true
  · simpa [process_object, hm, hs, download_resource_skip _ _ _ _ _ hb] using hb
  · have hb' : fs.pathExists (obj_path cfg.archive_path bucket_name obj.key) = false := by
      simpa using hb
    simp [process_object, hm, hs, download_resource_fetch _ _ _ _ _ hb',
      FS.pathExists, alookup_cons_self]

/-- One loop iteration preserves the presence of any path that is not the
object's temporary path, its scratch path, or its scratch temporary path. -/
theorem process_object_preserves_path (cfg : Config) (s3_client : String → String → Nat)
    (bucket_name : String) (c : Counters) (pk : Packer) (fs : FS) (obj : S3Object)
    (p : String) (hex : fs.pathExists p = true)
    (h1 : p ≠ temp_path (obj_path cfg.archive_path bucket_name obj.key))
    (h2 : p ≠ obj_path pk.tdir pk.bucket_name obj.key)
    (h3 : p ≠ temp_path (obj_path pk.tdir pk.bucket_name obj.key)) :
    ((process_object cfg s3_client bucket_name (c, pk, fs) obj).2.2).pathExists p = true := by
  by_cases hm : cfg.re_object obj.key
  · by_cases hs : obj.size < cfg.object_size_min
    · by_cases hz : path_join pk.bucket_name obj.key ∈ pk.file_list ∨
          path_join pk.bucket_name obj.key ∈ zip_names pk.entries
      · simpa [process_object, hm, hs, add_object_skip pk s3_client fs obj.key hz] using hex
      · push_neg at hz
        obtain ⟨hz1, hz2⟩ := hz
        by_cases hsp : fs.pathExists (obj_path pk.tdir pk.bucket_name obj.key) = true
        · simp only [process_object, hm, hs,
            add_object_scratch_exists pk s3_client fs obj.key hz1 hz2 hsp,
            if_true, if_pos, FS.unlink, FS.pathExists]
          rw [alookup_aerase_ne fs.files _ p h2]
          simpa [FS.pathExists] using hex
        · have hsp' : fs.pathExists (obj_path pk.tdir pk.bucket_name obj.key) = false := by
            simpa using hsp
          simp only [process_object, hm, hs,
            add_object_fetch pk s3_client fs obj.key hz1 hz2 hsp',
            if_true, if_pos, FS.pathExists]
          rw [alookup_aerase_ne _ _ p h2, alookup_aerase_ne fs.files _ p h3]
          simpa [FS.pathExists] using hex
    · by_cases hb : fs.pathExists (obj_path cfg.archive_path bucket_name obj.key) = true
      · simpa [process_object, hm, hs, download_resource_skip _ _ _ _ _ hb] using hex
      · have hb' : fs.pathExists (obj_path cfg.archive_path bucket_name obj.key) = false := by
          simpa using hb
        by_cases hpb : obj_path cfg.archive_path bucket_name obj.key = p
        · simp [process_object, hm, hs, download_resource_fetch _ _ _ _ _ hb',
            FS.pathExists, hpb, alookup_cons_self]
        · simpa [process_object, hm, hs, download_resource_fetch _ _ _ _ _ hb',
            FS.pathExists, alookup_cons_ne _ _ _ _ hpb,
            alookup_aerase_ne fs.files _ p h1] using hex
  · simpa [process_object, hm] using hex

/-- When the object is filtered out, the manifest covers a small object, or
the final file of a large object already exists, the loop iteration is a
pure counter bump: the packer and filesystem are untouched and no bytes are
added to `size_archived`. -/
theorem process_object_skip_effect (cfg : Config) (s3_client : String → String → Nat)
    (bucket_name : String) (c : Counters) (pk : Packer) (fs : FS) (obj : S3Object)
    (hcase : cfg.re_object obj.key = false ∨
      (cfg.re_object obj.key = true ∧ obj.size < cfg.object_size_min ∧
        path_join pk.bucket_name obj.key ∈ pk.file_list) ∨
      (cfg.re_object obj.key = true ∧ ¬ obj.size < cfg.object_size_min ∧
        fs.pathExists (obj_path cfg.archive_path bucket_name obj.key) = true)) :
    (process_object cfg s3_client bucket_name (c, pk, fs) obj).2 = (pk, fs) ∧
    (process_object cfg s3_client bucket_name (c, pk, fs) obj).1.size_archived =
      c.size_archived := by
  rcases hcase with hm | ⟨hm, hs, hz⟩ | ⟨hm, hs, hb⟩
  · simp [process_object, hm]
  · simp [process_object, hm, hs, add_object_skip pk s3_client fs obj.key (Or.inl hz)]
  · simp [process_object, hm, hs, download_resource_skip _ _ _ _ _ hb]

/-- Folding the listing preserves the presence of any path separated from
every processed object's temporary and scratch paths. -/
theorem foldl_preserves_path (cfg : Config) (s3_client : String → String → Nat)
    (bucket_name : String) :
    ∀ (listing : List S3Object) (c : Counters) (pk : Packer) (fs : FS) (p : String),
    fs.pathExists p = true →
    (∀ obj ∈ listing,
      p ≠ temp_path (obj_path cfg.archive_path bucket_name obj.key) ∧
      p ≠ obj_path pk.tdir pk.bucket_name obj.key ∧
      p ≠ temp_path (obj_path pk.tdir pk.bucket_name obj.key)) →
    ((listing.foldl (process_object cfg s3_client bucket_name) (c, pk, fs)).2.2).pathExists p = true
  | [], _, _, _, _, hex, _ => hex
  | x :: xs, c, pk, fs, p, hex, hsep => by
    rcases hstep : process_object cfg s3_client bucket_name (c, pk, fs) x with ⟨c1, pk1, fs1⟩
    obtain ⟨hx1, hx2, hx3⟩ := hsep x (List.mem_cons_self x xs)
    have hex1 : fs1.pathExists p = true := by
      have hp := process_object_preserves_path cfg s3_client bucket_name c pk fs x p hex hx1 hx2 hx3
      rw [hstep] at hp
      exact hp
    have hpk := process_object_pk cfg s3_client bucket_name c pk fs x
    rw [hstep] at hpk
    obtain ⟨hb, _, ht, _, _⟩ := hpk
    simp only [List.foldl_cons, hstep]
    apply foldl_preserves_path cfg s3_client bucket_name xs c1 pk1 fs1 p hex1
    intro o ho
    rw [ht, hb]
    exact hsep o (List.mem_cons_of_mem x ho)

/-- Folding the listing preserves the packer's identity fields and only
appends to its entries. -/
theorem foldl_pk (cfg : Config) (s3_client : String → String → Nat)
    (bucket_name : String) :
    ∀ (listing : List S3Object) (c : Counters) (pk : Packer) (fs : FS),
    ((listing.foldl (process_object cfg s3_client bucket_name) (c, pk, fs)).2.1).bucket_name = pk.bucket_name ∧
    ((listing.foldl (process_object cfg s3_client bucket_name) (c, pk, fs)).2.1).tdir = pk.tdir ∧
    ((listing.foldl (process_object cfg s3_client bucket_name) (c, pk, fs)).2.1).file_list = pk.file_list ∧
    ∃ s, ((listing.foldl (process_object cfg s3_client bucket_name) (c, pk, fs)).2.1).entries =
      pk.entries ++ s
  | [], _, pk, _ => ⟨rfl, rfl, rfl, [], by simp⟩
  | x :: xs, c, pk, fs => by
    rcases hstep : process_object cfg s3_client bucket_name (c, pk, fs) x with ⟨c1, pk1, fs1⟩
    have hpk := process_object_pk cfg s3_client bucket_name c pk fs x
    rw [hstep] at hpk
    obtain ⟨hb, _, ht, hf, s1, hs1⟩ := hpk
    obtain ⟨gb, gt, gf, s2, gs2⟩ := foldl_pk cfg s3_client bucket_name xs c1 pk1 fs1
    simp only [List.foldl_cons, hstep]
    refine ⟨by rw [gb, hb], by rw [gt, ht], by rw [gf, hf], s1 ++ s2, ?_⟩
    rw [gs2, hs1, List.append_assoc]

/-- After a run, every matching large object's final archive path exists,
provided the listed keys are path-separated. -/
theorem foldl_large_exists (cfg : Config) (s3_client : String → String → Nat)
    (bucket_name : String) :
    ∀ (listing : List S3Object) (c : Counters) (pk : Packer) (fs : FS),
    (∀ k1 ∈ listing.map S3Object.key, ∀ k2 ∈ listing.map S3Object.key,
      obj_path cfg.archive_path bucket_name k1 ≠ temp_path (obj_path cfg.archive_path bucket_name k2) ∧
      obj_path cfg.archive_path bucket_name k1 ≠ obj_path pk.tdir pk.bucket_name k2 ∧
      obj_path cfg.archive_path bucket_name k1 ≠ temp_path (obj_path pk.tdir pk.bucket_name k2)) →
    ∀ obj ∈ listing, cfg.re_object obj.key = true → ¬ obj.size < cfg.object_size_min →
    ((listing.foldl (process_object cfg s3_client bucket_name) (c, pk, fs)).2.2).pathExists
      (obj_path cfg.archive_path bucket_name obj.key) = true
  | [], _, _, _, _, obj, hobj, _, _ => absurd hobj (List.not_mem_nil obj)
  | x :: xs, c, pk, fs, hsep, obj, hobj, hm, hs => by
    rcases hstep : process_object cfg s3_client bucket_name (c, pk, fs) x with ⟨c1, pk1, fs1⟩
    have hpk := process_object_pk cfg s3_client bucket_name c pk fs x
    rw [hstep] at hpk
    obtain ⟨hb, _, ht, _, _⟩ := hpk
    simp only [List.foldl_cons, hstep]
    rcases List.mem_cons.mp hobj with hx | hobj'
    · subst hx
      have hest := process_object_establishes cfg s3_client bucket_name c pk fs obj hm hs
      rw [hstep] at hest
      apply foldl_preserves_path cfg s3_client bucket_name xs c1 pk1 fs1 _ hest
      intro o ho
      have hk1 : obj.key ∈ (obj :: xs).map S3Object.key :=
        List.mem_map_of_mem _ (List.mem_cons_self obj xs)
      have hk2 : o.key ∈ (obj :: xs).map S3Object.key :=
        List.mem_map_of_mem _ (List.mem_cons_of_mem obj ho)
      rw [ht, hb]
      exact hsep obj.key hk1 o.key hk2
    · apply foldl_large_exists cfg s3_client bucket_name xs c1 pk1 fs1 ?_ obj hobj' hm hs
      intro k1 hk1 k2 hk2
      rw [ht, hb]
      exact hsep k1 (by rw [List.map_cons]; exact List.mem_cons_of_mem _ hk1)
        k2 (by rw [List.map_cons]; exact List.mem_cons_of_mem _ hk2)

/-- After a run, every matching small object's qualified name is covered by
the initial manifest or by the final container listing. -/
theorem foldl_small_covered (cfg : Config) (s3_client : String → String → Nat)
    (bucket_name : String) :
    ∀ (listing : List S3Object) (c : Counters) (pk : Packer) (fs : FS),
    ∀ obj ∈ listing, cfg.re_object obj.key = true → obj.size < cfg.object_size_min →
    (path_join pk.bucket_name obj.key ∈ pk.file_list ∨
     path_join pk.bucket_name obj.key ∈
       zip_names ((listing.foldl (process_object cfg s3_client bucket_name) (c, pk, fs)).2.1).entries)
  | [], _, _, _, obj, hobj, _, _ => absurd hobj (List.not_mem_nil obj)
  | x :: xs, c, pk, fs, obj, hobj, hm, hs => by
    rcases hstep : process_object cfg s3_client bucket_name (c, pk, fs) x with ⟨c1, pk1, fs1⟩
    have hpk := process_object_pk cfg s3_client bucket_name c pk fs x
    rw [hstep] at hpk
    obtain ⟨hb, _, ht, hf, s1, hs1⟩ := hpk
    simp only [List.foldl_cons, hstep]
    rcases List.mem_cons.mp hobj with hx | hobj'
    · subst hx
      by_cases hz1 : path_join pk.bucket_name obj.key ∈ pk.file_list
      · exact Or.inl hz1
      · right
        obtain ⟨_, _, _, s2, gs2⟩ := foldl_pk cfg s3_client bucket_name xs c1 pk1 fs1
        by_cases hz2 : path_join pk.bucket_name obj.key ∈ zip_names pk.entries
        · rw [gs2, hs1, List.append_assoc, zip_names, List.map_append]
          exact List.mem_append_left _ hz2
        · -- the object is appended to the container during this step
          have hmem : path_join pk.bucket_name obj.key ∈ zip_names pk1.entries := by
            by_cases hsp : fs.pathExists (obj_path pk.tdir pk.bucket_name obj.key) = true
            · have hp1 : (process_object cfg s3_client bucket_name (c, pk, fs) obj).2.1 =
                  { pk with entries := pk.entries ++
                      [(path_join pk.bucket_name obj.key,
                        fs.fsize (obj_path pk.tdir pk.bucket_name obj.key))] } := by
                simp [process_object, hm, hs,
                  add_object_scratch_exists pk s3_client fs obj.key hz1 hz2 hsp]
              rw [hstep] at hp1
              have hp2 : pk1 = { pk with entries := pk.entries ++
                  [(path_join pk.bucket_name obj.key,
                    fs.fsize (obj_path pk.tdir pk.bucket_name obj.key))] } := hp1
              rw [hp2]
              simp [zip_names]
            · have hsp' : fs.pathExists (obj_path pk.tdir pk.bucket_name obj.key) = false := by
                simpa using hsp
              have hp1 : (process_object cfg s3_client bucket_name (c, pk, fs) obj).2.1 =
                  { pk with entries := pk.entries ++
                      [(path_join pk.bucket_name obj.key,
                        s3_client pk.bucket_name obj.key)] } := by
                simp [process_object, hm, hs,
                  add_object_fetch pk s3_client fs obj.key hz1 hz2 hsp']
              rw [hstep] at hp1
              have hp2 : pk1 = { pk with entries := pk.entries ++
                  [(path_join pk.bucket_name obj.key,
                    s3_client pk.bucket_name obj.key)] } := hp1
              rw [hp2]
              simp [zip_names]
          rw [gs2, zip_names, List.map_append]
          exact List.mem_append_left _ hmem
    · have hrec := foldl_small_covered cfg s3_client bucket_name xs c1 pk1 fs1 obj hobj' hm hs
      rw [hb, hf] at hrec
      exact hrec

/-- A run whose every matching object is covered — small ones by the
loaded manifest, large ones by an existing final file — is a pure counter
walk: packer and filesystem unchanged, zero bytes added. -/
theorem foldl_noop (cfg : Config) (s3_client : String → String → Nat)
    (bucket_name : String) :
    ∀ (listing : List S3Object) (c : Counters) (pk : Packer) (fs : FS),
    (∀ obj ∈ listing, cfg.re_object obj.key = true →
      (obj.size < cfg.object_size_min → path_join pk.bucket_name obj.key ∈ pk.file_list) ∧
      (¬ obj.size < cfg.object_size_min →
        fs.pathExists (obj_path cfg.archive_path bucket_name obj.key) = true)) →
    ((listing.foldl (process_object cfg s3_client bucket_name) (c, pk, fs)).2 = (pk, fs)) ∧
    ((listing.foldl (process_object cfg s3_client bucket_name) (c, pk, fs)).1.size_archived =
      c.size_archived)
  | [], _, _, _, _ => ⟨rfl, rfl⟩
  | x :: xs, c, pk, fs, h => by
    have hcase : cfg.re_object x.key = false ∨
        (cfg.re_object x.key = true ∧ x.size < cfg.object_size_min ∧
          path_join pk.bucket_name x.key ∈ pk.file_list) ∨
        (cfg.re_object x.key = true ∧ ¬ x.size < cfg.object_size_min ∧
          fs.pathExists (obj_path cfg.archive_path bucket_name x.key) = true) := by
      by_cases hm : cfg.re_object x.key
      · by_cases hs : x.size < cfg.object_size_min
        · exact Or.inr (Or.inl ⟨hm, hs, (h x (List.mem_cons_self x xs) hm).1 hs⟩)
        · exact Or.inr (Or.inr ⟨hm, hs, (h x (List.mem_cons_self x xs) hm).2 hs⟩)
      · exact Or.inl (by simpa using hm)
    obtain ⟨hpf, hsz⟩ := process_object_skip_effect cfg s3_client bucket_name c pk fs x hcase
    rcases hstep : process_object cfg s3_client bucket_name (c, pk, fs) x with ⟨c1, pk1, fs1⟩
    rw [hstep] at hpf hsz
    have hpk : pk1 = pk := congrArg Prod.fst hpf
    have hfs : fs1 = fs := congrArg Prod.snd hpf
    have hsz' : c1.size_archived = c.size_archived := hsz
    rw [hpk, hfs] at hstep
    simp only [List.foldl_cons, hstep]
    obtain ⟨ih1, ih2⟩ := foldl_noop cfg s3_client bucket_name xs c1 pk fs
      (fun obj ho => h obj (List.mem_cons_of_mem x ho))
    exact ⟨ih1, by rw [ih2]; exact hsz'⟩

/-- `close()` writes the container's name list as the manifest whenever the
container is non-empty. -/
theorem close_manifest_of_ne_nil (pk : Packer) (h : pk.entries ≠ []) :
    (Packer.close pk).manifest = zip_names pk.entries := by
  simp [Packer.close, isEmpty_false_of_ne_nil h]

/-- Any qualified name covered by the old manifests or by the closing
container's listing is covered by the manifest files left after `close`. -/
theorem mem_flatten_close (z : String) (mans0 : List (List String)) (pkF : Packer)
    (h : z ∈ mans0.flatten ∨ z ∈ zip_names pkF.entries) :
    z ∈ (mans0 ++ (if (Packer.close pkF).manifest.isEmpty then []
        else [(Packer.close pkF).manifest])).flatten := by
  rw [List.flatten_append]
  rcases h with h | h
  · exact List.mem_append_left _ h
  · have hne : pkF.entries ≠ [] := by
      intro hnil
      rw [hnil] at h
      simp [zip_names] at h
    have hman : (Packer.close pkF).manifest = zip_names pkF.entries :=
      close_manifest_of_ne_nil _ hne
    have hmanne : (Packer.close pkF).manifest.isEmpty = false := by
      rw [hman]
      apply isEmpty_false_of_ne_nil
      intro hnil
      rw [hnil] at h
      exact absurd h (List.not_mem_nil _)
    refine List.mem_append_right _ ?_
    rw [hmanne]
    simpa [hman] using h

/-- After one run of a bucket, the manifest files on disk cover every
matching small object of the listing. -/
theorem run_bucket_manifest_covers (cfg : Config) (s3_client : String → String → Nat)
    (bucket_name tdir1 : String) (listing : List S3Object)
    (c0 : Counters) (d0 : BucketDisk) (obj : S3Object) (hobj : obj ∈ listing)
    (hm : cfg.re_object obj.key = true) (hs : obj.size < cfg.object_size_min) :
    path_join bucket_name obj.key ∈
      ((run_bucket cfg s3_client bucket_name tdir1 listing c0 d0).2.manifests).flatten := by
  have hcov := foldl_small_covered cfg s3_client bucket_name listing c0
    (packer_init bucket_name tdir1 cfg.object_size_min d0) d0.fs obj hobj hm hs
  have hcov' : path_join bucket_name obj.key ∈ d0.manifests.flatten ∨
      path_join bucket_name obj.key ∈ zip_names
        ((listing.foldl (process_object cfg s3_client bucket_name)
          (c0, packer_init bucket_name tdir1 cfg.object_size_min d0, d0.fs)).2.1).entries := hcov
  exact mem_flatten_close _ _ _ hcov'

/-- After one run of a bucket with path-separated keys, the final archive
file of every matching large object of the listing exists. -/
theorem run_bucket_large_covers (cfg : Config) (s3_client : String → String → Nat)
    (bucket_name tdir1 : String) (listing : List S3Object)
    (c0 : Counters) (d0 : BucketDisk)
    (hsep : Sep cfg.archive_path tdir1 bucket_name (listing.map S3Object.key))
    (obj : S3Object) (hobj : obj ∈ listing)
    (hm : cfg.re_object obj.key = true) (hs : ¬ obj.size < cfg.object_size_min) :
    ((run_bucket cfg s3_client bucket_name tdir1 listing c0 d0).2.fs).pathExists
      (obj_path cfg.archive_path bucket_name obj.key) = true :=
  foldl_large_exists cfg s3_client bucket_name listing c0
    (packer_init bucket_name tdir1 cfg.object_size_min d0) d0.fs hsep obj hobj hm hs

/-- A second run over a listing whose matching objects are all covered
transfers nothing and leaves the filesystem untouched. -/
theorem run_bucket_second_run (cfg : Config) (s3_client : String → String → Nat)
    (bucket_name tdir2 : String) (listing : List S3Object)
    (c0' : Counters) (fs2 : FS) (mans : List (List String))
    (cont2 : List (String × Nat))
    (hyp1 : ∀ obj ∈ listing, cfg.re_object obj.key = true →
      obj.size < cfg.object_size_min → path_join bucket_name obj.key ∈ mans.flatten)
    (hyp2 : ∀ obj ∈ listing, cfg.re_object obj.key = true →
      ¬ obj.size < cfg.object_size_min →
      fs2.pathExists (obj_path cfg.archive_path bucket_name obj.key) = true) :
    ((run_bucket cfg s3_client bucket_name tdir2 listing c0'
        { fs := fs2, manifests := mans, container := cont2 }).1.size_archived =
      c0'.size_archived) ∧
    ((run_bucket cfg s3_client bucket_name tdir2 listing c0'
        { fs := fs2, manifests := mans, container := cont2 }).2.fs = fs2) := by
  have hnoop := foldl_noop cfg s3_client bucket_name listing c0'
    (packer_init bucket_name tdir2 cfg.object_size_min
      { fs := fs2, manifests := mans, container := cont2 }) fs2
    (fun obj hobj hm =>
      ⟨fun hs => hyp1 obj hobj hm hs, fun hs => hyp2 obj hobj hm hs⟩)
  refine ⟨hnoop.2, ?_⟩
  have h2 : (listing.foldl (process_object cfg s3_client bucket_name)
      (c0', packer_init bucket_name tdir2 cfg.object_size_min
        { fs := fs2, manifests := mans, container := cont2 }, fs2)).2.2 = fs2 :=
    congrArg Prod.snd hnoop.1
  exact h2

/-- C4: running the orchestrator's bucket loop a second time against an
unchanged bucket — same listing, the local tree, container state and
manifest files left by the first run — transfers zero additional bytes and
leaves the filesystem untouched: every matching large object is skipped by
the existing-file check of `download_resource` and every matching small
object is skipped by the manifest check of `add_object`.  (`Sep` rules out
degenerate path collisions between the archive tree, the scratch directory
and the `temp_` decoration; `cont2` is arbitrary because the second run's
container — reopened same-day or fresh on a later day — is never needed for
the skip.) -/
theorem c4_second_run_no_transfer (cfg : Config) (s3_client : String → String → Nat)
    (bucket_name tdir1 tdir2 : String) (listing : List S3Object)
    (c0 c0' : Counters) (d0 : BucketDisk) (cont2 : List (String × Nat))
    (hsep : Sep cfg.archive_path tdir1 bucket_name (listing.map S3Object.key)) :
    ((run_bucket cfg s3_client bucket_name tdir2 listing c0'
        { fs := (run_bucket cfg s3_client bucket_name tdir1 listing c0 d0).2.fs,
          manifests := (run_bucket cfg s3_client bucket_name tdir1 listing c0 d0).2.manifests,
          container := cont2 }).1.size_archived = c0'.size_archived) ∧
    ((run_bucket cfg s3_client bucket_name tdir2 listing c0'
        { fs := (run_bucket cfg s3_client bucket_name tdir1 listing c0 d0).2.fs,
          manifests := (run_bucket cfg s3_client bucket_name tdir1 listing c0 d0).2.manifests,
          container := cont2 }).2.fs =
      (run_bucket cfg s3_client bucket_name tdir1 listing c0 d0).2.fs) :=
  run_bucket_second_run cfg s3_client bucket_name tdir2 listing c0'
    ((run_bucket cfg s3_client bucket_name tdir1 listing c0 d0).2.fs)
    ((run_bucket cfg s3_client bucket_name tdir1 listing c0 d0).2.manifests) cont2
    (fun obj hobj hm hs =>
      run_bucket_manifest_covers cfg s3_client bucket_name tdir1 listing c0 d0 obj hobj hm hs)
    (fun obj hobj hm hs =>
      run_bucket_large_covers cfg s3_client bucket_name tdir1 listing c0 d0 hsep obj hobj hm hs)

/-- Witness for C4: the scenario listing run twice from an empty disk. -/
theorem c4_second_run_no_transfer_witness :
    Sep cfgAll.archive_path "tmp1" "bkt" (listingScenario.map S3Object.key) ∧
    ((run_bucket cfgAll s3Scenario "bkt" "tmp2" listingScenario Counters.init
        { fs := (run_bucket cfgAll s3Scenario "bkt" "tmp1" listingScenario Counters.init diskEmpty).2.fs,
          manifests := (run_bucket cfgAll s3Scenario "bkt" "tmp1" listingScenario Counters.init diskEmpty).2.manifests,
          container := [] }).1.size_archived = Counters.init.size_archived) ∧
    ((run_bucket cfgAll s3Scenario "bkt" "tmp2" listingScenario Counters.init
        { fs := (run_bucket cfgAll s3Scenario "bkt" "tmp1" listingScenario Counters.init diskEmpty).2.fs,
          manifests := (run_bucket cfgAll s3Scenario "bkt" "tmp1" listingScenario Counters.init diskEmpty).2.manifests,
          container := [] }).2.fs =
      (run_bucket cfgAll s3Scenario "bkt" "tmp1" listingScenario Counters.init diskEmpty).2.fs) :=
  ⟨by decide,
   (c4_second_run_no_transfer cfgAll s3Scenario "bkt" "tmp1" "tmp2" listingScenario
      Counters.init Counters.init diskEmpty [] (by decide)).1,
   (c4_second_run_no_transfer cfgAll s3Scenario "bkt" "tmp1" "tmp2" listingScenario
      Counters.init Counters.init diskEmpty [] (by decide)).2⟩

end ArchiveS3
